import Mathlib

/-!
Shallow embedding of the combination worker of the kahoot-alternative
repository (route `POST /api/generate-combinations` and its helpers in
`src/app/game/[id]/lobby.tsx`).

Effectful boundaries (the WaveSpeed HTTP API and the Supabase record store)
are modelled as oracle functions passed to the embedded worker: each oracle
answers what the corresponding request observed.  The worker's own logic —
canonical pair naming, missing-pair enumeration, submit/poll/persist phases
and the summary response — is translated directly from the source.
-/

namespace Combinations

/-- A row of the `people` table (`interface Person` in the source). -/
structure Person where
  id : String
  name : String
  image : String
deriving Repr, DecidableEq

/-- The canonical decomposition of a character, for the characters this
development uses: `'ä'` (U+00E4) canonically decomposes to `'a'` (U+0061)
followed by the combining diaeresis (U+0308); the other characters used
here are their own canonical decomposition. -/
def canonicalDecomp (c : Char) : List Char :=
  if c = 'ä' then ['a', '\u0308'] else [c]

/-- A collation key for `localeCompare`: ECMA-262 requires strings that are
canonically equivalent under Unicode to compare as identical, so a string's
key is its canonical decomposition, compared code point by code point.
Distinct strings can share a key, so the comparison is a total preorder,
not antisymmetric. -/
def localeKey (s : String) : List Char := s.data.flatMap canonicalDecomp

/-- `a.localeCompare(b) <= 0`. -/
def localeLe (a b : String) : Bool := localeKey a ≤ localeKey b

/-- `canonicalName` from the source:
`nameA.localeCompare(nameB) <= 0 ? nameA + " x " + nameB : nameB + " x " + nameA`. -/
def canonicalName (nameA nameB : String) : String :=
  if localeLe nameA nameB then nameA ++ " x " ++ nameB
  else nameB ++ " x " ++ nameA

/-- The index pairs visited by the nested loops
`for i in [0,n); for j in [i+1,n)` of step 3 of the route handler, in visit
order. -/
def pairIndices (n : Nat) : List (Nat × Nat) :=
  (List.range n).flatMap fun i =>
    ((List.range n).filter fun j => i < j).map fun j => (i, j)

/-- `people[i]` for an in-range index (the loops only use in-range indices). -/
def personAt (people : List Person) (i : Nat) : Person :=
  people.getD i ⟨"", "", ""⟩

/-- Step 3 of the route handler: the `missingPairs` array after the nested
loops — every index pair `(i, j)` with `i < j`, kept when its canonical name
is not among the existing `generated` names. -/
def missingPairs (people : List Person) (existingNames : List String) :
    List (Person × Person) :=
  (pairIndices people.length).filterMap fun ij =>
    if existingNames.contains
        (canonicalName (personAt people ij.1).name (personAt people ij.2).name)
    then none
    else some (personAt people ij.1, personAt people ij.2)

/-! ### Generation client -/

/-- What one `submitJob` request observed: a thrown fetch/parse exception, a
non-ok HTTP response (`!res.ok`, with status and body text), or a parsed JSON
body carrying `code` and `data?.id` (`none` when `data` is absent or the id
is missing/empty, i.e. when `!json.data?.id` holds). -/
inductive SubmitObs where
  | requestError : SubmitObs
  | httpError (status : Nat) (body : String) : SubmitObs
  | response (code : Int) (dataId : Option String) : SubmitObs
deriving Repr, DecidableEq

/-- `submitJob` from the source, as a function of what its single request
observed: returns the prediction id on success, or `none` on failure
(`return null` in each failure branch). -/
def submitJob (obs : SubmitObs) : Option String :=
  match obs with
  | .requestError => none
  | .httpError _ _ => none
  | .response code dataId =>
      match dataId with
      | none => none
      | some id => if code = 200 ∧ id ≠ "" then some id else none

/-- What one poll attempt of `pollResult` observed: a non-ok HTTP response or
thrown exception (both lead to the next attempt), or a parsed JSON body with
`data?.status` and `data?.outputs`. -/
inductive PollObs where
  | requestError : PollObs
  | response (status : Option String) (outputs : Option (List String)) : PollObs
deriving Repr, DecidableEq

/-- The body of one iteration of the `pollResult` loop: `some r` when the
iteration returns `r` (a terminal status was observed), `none` when the loop
keeps polling (request error, or a non-terminal / absent status). -/
def pollStep (obs : PollObs) : Option (Option String) :=
  match obs with
  | .requestError => none
  | .response status outputs =>
      if status = some "completed" then
        some (outputs.bind List.head?)
      else if status = some "failed" then some none
      else none

/-- The `for (attempt = ...)` loop of `pollResult`, from attempt number
`attempt` with `fuel` attempts left; returns `none` after the loop
(`return null` at the bottom, the timeout case). -/
def pollResultFrom (obs : Nat → PollObs) : Nat → Nat → Option String
  | _, 0 => none
  | attempt, fuel + 1 =>
      match pollStep (obs attempt) with
      | some r => r
      | none => pollResultFrom obs (attempt + 1) fuel

/-- `pollResult` from the source, as a function of what each attempt's status
request observed (`obs a` is attempt `a`'s observation). -/
def pollResult (obs : Nat → PollObs) (maxAttempts : Nat := 30) : Option String :=
  pollResultFrom obs 0 maxAttempts

/-! ### Route handler -/

/-- Outcome of one `db.from('generated').insert(..)` call: no error, or an
error with its Postgres `code` and message. -/
inductive InsertOutcome where
  | ok : InsertOutcome
  | fail (code : String) (message : String) : InsertOutcome
deriving Repr, DecidableEq

/-- The environment variables read at the top of `POST` (`none` models an
unset or empty — i.e. falsy — variable). -/
structure Env where
  apiKey : Option String
  supabaseUrl : Option String
  serviceRoleKey : Option String
deriving Repr, DecidableEq

/-- One element of the `submitted` array of step 4. -/
structure SubmittedJob where
  pair : Person × Person
  predictionId : String
  canonName : String
deriving Repr, DecidableEq

/-- The effectful boundaries of one invocation, as oracles: what the submit
request for two image URLs observed, what poll attempt `a` for a prediction
id observed, and the outcome of inserting a `{name, image}` row into
`generated`. -/
structure Oracles where
  submitObs : String → String → SubmitObs
  pollObs : String → Nat → PollObs
  insert : String → String → InsertOutcome

/-- Step 4 of the route handler: submit every missing pair and collect the
jobs that yielded a prediction id (a `null` from `submitJob` drops only that
pair). -/
def submitPhase (o : Oracles) (missing : List (Person × Person)) :
    List SubmittedJob :=
  missing.filterMap fun pair =>
    match submitJob (o.submitObs pair.1.image pair.2.image) with
    | some predictionId =>
        some ⟨pair, predictionId, canonicalName pair.1.name pair.2.name⟩
    | none => none

/-- The per-job task of step 5 (the async closure inside
`Promise.allSettled`): poll the job; throw when it produced no output —
`if (!outputUrl) throw` in the source, so `null` and the falsy empty string
both reject; insert the row; swallow a `23505` unique-violation insert
error, rethrow any other insert error; return the canonical name.  The
result records the settled outcome (`Except`, where `.error` is a rejected
promise) together with the insert calls the task issued. -/
def processJob (o : Oracles) (job : SubmittedJob) :
    Except String String × List (String × String) :=
  match pollResult (o.pollObs job.predictionId) 30 with
  | none => (.error ("No output for " ++ job.canonName), [])
  | some outputUrl =>
      if outputUrl = "" then
        (.error ("No output for " ++ job.canonName), [])
      else
        match o.insert job.canonName outputUrl with
        | .ok => (.ok job.canonName, [(job.canonName, outputUrl)])
        | .fail code message =>
            if code = "23505" then
              (.ok job.canonName, [(job.canonName, outputUrl)])
            else (.error message, [(job.canonName, outputUrl)])

/-- The JSON response of the route handler: `{error}` with a status,
`{message}` with a status, or the full summary
`{message, total, submitted, succeeded, failed}` with a status. -/
inductive Response where
  | errorResponse (status : Nat) (error : String) : Response
  | messageResponse (status : Nat) (message : String) : Response
  | summaryResponse (status : Nat) (message : String)
      (total submitted succeeded failed : Nat) : Response
deriving Repr, DecidableEq

/-- The HTTP status a `Response` is sent with. -/
def Response.statusCode : Response → Nat
  | .errorResponse status _ => status
  | .messageResponse status _ => status
  | .summaryResponse status _ _ _ _ _ => status

/-- Whether a `Response` body carries all of the fields
`message`, `total`, `submitted`, `succeeded` and `failed`. -/
def Response.hasSummaryFields : Response → Bool
  | .summaryResponse _ _ _ _ _ _ => true
  | _ => false

/-- An invocation's observable outcome: the HTTP response, together with the
inserts into `generated` the invocation attempted. -/
structure RunResult where
  response : Response
  insertAttempts : List (String × String)
deriving Repr, DecidableEq

/-- The `POST` route handler, as a function of the environment, the two table
reads (`Except.error` models a Supabase read error) and the oracles. -/
def POST (env : Env) (peopleRead : Except String (List Person))
    (generatedRead : Except String (List String)) (o : Oracles) : RunResult :=
  match env.apiKey with
  | none => ⟨.errorResponse 500 "WAVESPEED_API_KEY not set", []⟩
  | some _ =>
    match env.supabaseUrl, env.serviceRoleKey with
    | some _, some _ =>
      match peopleRead with
      | .error e => ⟨.errorResponse 500 e, []⟩
      | .ok people =>
        if people.length < 2 then
          ⟨.messageResponse 200 "Not enough people yet", []⟩
        else
          match generatedRead with
          | .error e => ⟨.errorResponse 500 e, []⟩
          | .ok existingNames =>
            let missing := missingPairs people existingNames
            if missing.length = 0 then
              ⟨.messageResponse 200 "All combinations already generated", []⟩
            else
              let submitted := submitPhase o missing
              let results := submitted.map (processJob o)
              let succeeded := (results.map Prod.fst).countP Except.isOk
              let failed :=
                (results.map Prod.fst).countP fun r => !(Except.isOk r)
              ⟨.summaryResponse 200
                ("Done. Succeeded: " ++ toString succeeded ++
                  ", failed: " ++ toString failed)
                missing.length submitted.length succeeded failed,
               (results.map Prod.snd).flatten⟩
    | _, _ => ⟨.errorResponse 500 "Supabase env vars not set", []⟩

/-- `GET` delegates to `POST` (cron compatibility). -/
def GET (env : Env) (peopleRead : Except String (List Person))
    (generatedRead : Except String (List String)) (o : Oracles) : RunResult :=
  POST env peopleRead generatedRead o

/-! ### Concrete records used to exercise the definitions -/

/-- A sample person record. -/
def samplePersonA : Person := ⟨"1", "Alice", "imgA"⟩

/-- A second sample person record. -/
def samplePersonB : Person := ⟨"2", "Bob", "imgB"⟩

/-- A two-person `people` table. -/
def samplePeople : List Person := [samplePersonA, samplePersonB]

/-- Oracles for a run where every request succeeds: submissions are
acknowledged with prediction id `"pid"`, the first poll reports `completed`
with output `"out"`, and inserts succeed. -/
def sampleOracles : Oracles :=
  ⟨fun _ _ => .response 200 (some "pid"),
   fun _ _ => .response (some "completed") (some ["out"]),
   fun _ _ => .ok⟩

/-- A submitted job for the sample pair. -/
def sampleJob : SubmittedJob := ⟨(samplePersonA, samplePersonB), "pid", "Alice x Bob"⟩

/-- A poll-observation sequence: a request error, then a non-terminal
status, then `completed` with one output. -/
def samplePollObs : Nat → PollObs
  | 0 => .requestError
  | 1 => .response (some "queued") none
  | 2 => .response (some "completed") (some ["outUrl"])
  | _ => .response (some "failed") none

/-- Three person records where two distinct records share the name `"Ann"`. -/
def dupPersonA : Person := ⟨"1", "Ann", "imgA"⟩

/-- A person record with a distinct name `"Ben"`. -/
def dupPersonB : Person := ⟨"2", "Ben", "imgB"⟩

/-- A third record with the same name as `dupPersonA` but a different id. -/
def dupPersonA2 : Person := ⟨"3", "Ann", "imgC"⟩

/-- A `people` table containing two records with an identical name. -/
def dupPeople : List Person := [dupPersonA, dupPersonB, dupPersonA2]

end Combinations

/-! ## Theorems -/

namespace Combinations

/-- C1 (counterexample): `localeCompare` must treat the distinct but
canonically equivalent strings `"ä"` (U+00E4) and `"a\u0308"` (U+0061
U+0308) as identical, so both call orders of `canonicalName` take the first
branch and the two labels differ: symmetry fails at this pair of distinct
name strings. -/
theorem canonicalName_symm_counterexample :
    localeLe "ä" "a\u0308" = true ∧
    localeLe "a\u0308" "ä" = true ∧
    ("ä" : String) ≠ "a\u0308" ∧
    canonicalName "ä" "a\u0308" ≠ canonicalName "a\u0308" "ä" := by
  decide

/-- C1 (amended): for every pair of name strings on which the tie-break
comparison is antisymmetric — their collation keys coincide only if the
strings are equal, which covers all pairs of canonically inequivalent names
and all equal names — `canonicalName a b = canonicalName b a`, and the
result is the two names joined by `" x "` with the name that sorts first
(per the tie-break comparison) on the left. -/
theorem canonicalName_symm_sorted (a b : String)
    (h : localeKey a = localeKey b → a = b) :
    canonicalName a b = canonicalName b a ∧
    (localeLe a b = true → canonicalName a b = a ++ " x " ++ b) ∧
    (localeLe b a = true → canonicalName a b = b ++ " x " ++ a) := by
  unfold canonicalName localeLe
  rcases le_total (localeKey a) (localeKey b) with hle | hle
  · by_cases hba : localeKey b ≤ localeKey a
    · obtain rfl : a = b := h (le_antisymm hle hba)
      simp
    · simp [hle, hba]
  · by_cases hab : localeKey a ≤ localeKey b
    · obtain rfl : a = b := h (le_antisymm hab hle)
      simp
    · simp [hle, hab]

/-- Witness for C1 at the concrete names `"Alice"` and `"Bob"`. -/
theorem canonicalName_symm_sorted_witness :
    canonicalName "Alice" "Bob" = canonicalName "Bob" "Alice" ∧
    canonicalName "Alice" "Bob" = "Alice" ++ " x " ++ "Bob" :=
  ⟨(canonicalName_symm_sorted "Alice" "Bob" (by decide)).1,
   (canonicalName_symm_sorted "Alice" "Bob" (by decide)).2.1 (by decide)⟩

end Combinations

namespace Combinations

/-- Membership in the visited index pairs. -/
lemma mem_pairIndices {n i j : Nat} :
    (i, j) ∈ pairIndices n ↔ i < j ∧ j < n := by
  simp only [pairIndices, List.mem_flatMap, List.mem_map, List.mem_filter,
    List.mem_range, decide_eq_true_eq, Prod.mk.injEq]
  constructor
  · rintro ⟨a, ha, b, ⟨hb, hab⟩, rfl, rfl⟩
    omega
  · rintro ⟨hij, hjn⟩
    exact ⟨i, by omega, j, ⟨hjn, hij⟩, rfl, rfl⟩

/-- The visited index pairs contain no duplicate. -/
lemma pairIndices_nodup (n : Nat) : (pairIndices n).Nodup := by
  unfold pairIndices
  rw [List.nodup_flatMap]
  constructor
  · intro i _
    exact (((List.nodup_range n).filter _).map (fun a b h => by
      simpa using h))
  · refine (List.pairwise_lt_range n).imp ?_
    intro a b hab x hxa hxb
    simp only [List.mem_map, List.mem_filter] at hxa hxb
    obtain ⟨j, _, rfl⟩ := hxa
    obtain ⟨j2, _, hj2⟩ := hxb
    have : b = a := congrArg Prod.fst hj2
    omega

/-- Sum of a map over `List.range` as a `Finset` sum. -/
lemma list_range_map_sum (f : Nat → Nat) (n : Nat) :
    ((List.range n).map f).sum = ∑ i ∈ Finset.range n, f i := by
  induction n with
  | zero => simp
  | succ n ih => rw [List.range_succ]; simp [ih, Finset.sum_range_succ]

/-- The inner loop of the pair enumeration visits `n - (i + 1)` indices. -/
lemma filter_lt_range_length (i n : Nat) :
    ((List.range n).filter fun j => i < j).length = n - (i + 1) := by
  induction n with
  | zero => simp
  | succ n ih =>
    rw [List.range_succ, List.filter_append]
    by_cases h : i < n
    · simp [List.length_append, ih, h]
      omega
    · simp [List.length_append, ih, h]
      omega

/-- The enumeration visits `n * (n - 1) / 2` index pairs. -/
lemma pairIndices_length (n : Nat) :
    (pairIndices n).length = n * (n - 1) / 2 := by
  unfold pairIndices
  rw [List.length_flatMap]
  simp only [Function.comp_def]
  have h1 : ((List.range n).map fun i =>
      (((List.range n).filter fun j => i < j).map fun j => (i, j)).length) =
      (List.range n).map fun i => n - (i + 1) := by
    refine List.map_congr_left ?_
    intro i _
    rw [List.length_map, filter_lt_range_length]
  rw [h1, list_range_map_sum]
  have h2 : ∑ i ∈ Finset.range n, (n - (i + 1)) =
      ∑ i ∈ Finset.range n, (n - 1 - i) :=
    Finset.sum_congr rfl fun i _ => by omega
  rw [h2, Finset.sum_range_reflect (fun i => i) n, Finset.sum_range_id]

/-- Length of a conditional `filterMap`: kept are those not filtered out. -/
lemma length_filterMap_if {α β : Type} (l : List α) (p : α → Bool) (g : α → β) :
    (l.filterMap fun a => if p a then none else some (g a)).length =
      l.length - l.countP p := by
  induction l with
  | nil => rfl
  | cons a l ih =>
    have hle := List.countP_le_length (p := p) (l := l)
    by_cases h : p a
    all_goals simp [List.filterMap_cons, h, ih, List.countP_cons]
    all_goals omega

end Combinations

namespace Combinations

/-- `flatMap` is pairwise when each block is pairwise and blocks relate. -/
lemma pairwise_flatMap {α β : Type} {R : β → β → Prop} {l : List α}
    {f : α → List β}
    (hinner : ∀ a ∈ l, (f a).Pairwise R)
    (hcross : l.Pairwise fun a b => ∀ x ∈ f a, ∀ y ∈ f b, R x y) :
    (l.flatMap f).Pairwise R := by
  induction l with
  | nil => simp
  | cons a l ih =>
    rw [List.flatMap_cons, List.pairwise_append]
    rw [List.pairwise_cons] at hcross
    refine ⟨hinner a (List.mem_cons_self a l),
      ih (fun b hb => hinner b (List.mem_cons_of_mem a hb)) hcross.2, ?_⟩
    intro x hx y hy
    rw [List.mem_flatMap] at hy
    obtain ⟨b, hb, hyb⟩ := hy
    exact hcross.1 b hb x hx y hyb

/-- The enumeration is in strictly ascending lexicographic index order. -/
lemma pairIndices_sorted (n : Nat) :
    (pairIndices n).Pairwise
      fun a b => a.1 < b.1 ∨ (a.1 = b.1 ∧ a.2 < b.2) := by
  unfold pairIndices
  refine pairwise_flatMap ?_ ?_
  · intro i _
    refine List.Pairwise.map _ ?_ ((List.pairwise_lt_range n).filter _)
    intro a b hab
    right
    exact ⟨rfl, hab⟩
  · refine (List.pairwise_lt_range n).imp ?_
    intro a b hab x hx y hy
    simp only [List.mem_map, List.mem_filter] at hx hy
    obtain ⟨j, _, rfl⟩ := hx
    obtain ⟨j2, _, rfl⟩ := hy
    left
    exact hab

end Combinations

namespace Combinations

/-- C2: the missing-pairs computation enumerates exactly the
`n * (n - 1) / 2` index pairs `(i, j)` with `i < j` (no self-pair, no
duplicate, in ascending lexicographic order, hence deterministic), and keeps
exactly those pairs whose canonical label is absent from the done-name set,
so its length is `n * (n - 1) / 2` minus the number of enumerated pairs whose
label is present. -/
theorem missingPairs_spec (people : List Person) (doneNames : List String) :
    (∀ ij ∈ pairIndices people.length, ij.1 < ij.2 ∧ ij.2 < people.length) ∧
    (∀ i j, i < j → j < people.length → (i, j) ∈ pairIndices people.length) ∧
    (pairIndices people.length).Nodup ∧
    (pairIndices people.length).Pairwise
      (fun a b => a.1 < b.1 ∨ (a.1 = b.1 ∧ a.2 < b.2)) ∧
    (pairIndices people.length).length =
      people.length * (people.length - 1) / 2 ∧
    (∀ pq, pq ∈ missingPairs people doneNames ↔
      ∃ i j, i < j ∧ j < people.length ∧
        pq = (personAt people i, personAt people j) ∧
        doneNames.contains
          (canonicalName (personAt people i).name (personAt people j).name)
          = false) ∧
    (missingPairs people doneNames).length =
      people.length * (people.length - 1) / 2 -
        (pairIndices people.length).countP (fun ij =>
          doneNames.contains
            (canonicalName (personAt people ij.1).name
              (personAt people ij.2).name)) := by
  refine ⟨?_, ?_, pairIndices_nodup _, pairIndices_sorted _,
    pairIndices_length _, ?_, ?_⟩
  · rintro ⟨i, j⟩ hij
    exact mem_pairIndices.mp hij
  · intro i j hij hjn
    exact mem_pairIndices.mpr ⟨hij, hjn⟩
  · intro pq
    unfold missingPairs
    rw [List.mem_filterMap]
    constructor
    · rintro ⟨⟨i, j⟩, hmem, hf⟩
      obtain ⟨hij, hjn⟩ := mem_pairIndices.mp hmem
      rcases hc : doneNames.contains
          (canonicalName (personAt people i).name (personAt people j).name)
        with _ | _
      · simp only [hc] at hf
        simp at hf
        exact ⟨i, j, hij, hjn, hf.symm, hc⟩
      · simp only [hc] at hf
        simp at hf
    · rintro ⟨i, j, hij, hjn, rfl, hcon⟩
      refine ⟨(i, j), mem_pairIndices.mpr ⟨hij, hjn⟩, ?_⟩
      simp only [hcon]
      simp
  · unfold missingPairs
    rw [length_filterMap_if, pairIndices_length]

/-- Witness for C2: the index pair `(0, 1)` is enumerated for the sample
two-person table. -/
theorem missingPairs_spec_witness :
    (0, 1) ∈ pairIndices samplePeople.length :=
  (missingPairs_spec samplePeople []).2.1 0 1 (by decide) (by decide)

end Combinations

namespace Combinations

/-- The loop's value depends only on the observations it may visit. -/
lemma pollResultFrom_congr (obs obs2 : Nat → PollObs) (s n : Nat)
    (h : ∀ k, k < n → obs (s + k) = obs2 (s + k)) :
    pollResultFrom obs s n = pollResultFrom obs2 s n := by
  induction n generalizing s with
  | zero => rfl
  | succ n ih =>
    have h0 : obs s = obs2 s := by simpa using h 0 (by omega)
    simp only [pollResultFrom, h0]
    cases pollStep (obs2 s) with
    | some r => rfl
    | none =>
        exact ih (s + 1) fun k hk => by
          have hkx := h (k + 1) (by omega)
          rwa [show s + (k + 1) = s + 1 + k by omega] at hkx

/-- If no visited attempt is terminal, the loop falls through to `none`. -/
lemma pollResultFrom_none (obs : Nat → PollObs) (s n : Nat)
    (h : ∀ k, k < n → pollStep (obs (s + k)) = none) :
    pollResultFrom obs s n = none := by
  induction n generalizing s with
  | zero => rfl
  | succ n ih =>
    have h0 : pollStep (obs s) = none := by simpa using h 0 (by omega)
    simp only [pollResultFrom, h0]
    exact ih (s + 1) fun k hk => by
      have hkx := h (k + 1) (by omega)
      rwa [show s + (k + 1) = s + 1 + k by omega] at hkx

/-- The loop returns the value of the first terminal attempt. -/
lemma pollResultFrom_terminal (obs : Nat → PollObs) (s n a : Nat)
    (r : Option String) (ha : a < n)
    (hbefore : ∀ k, k < a → pollStep (obs (s + k)) = none)
    (hterm : pollStep (obs (s + a)) = some r) :
    pollResultFrom obs s n = r := by
  induction n generalizing s a with
  | zero => omega
  | succ n ih =>
    cases a with
    | zero =>
        have hterm0 : pollStep (obs s) = some r := by simpa using hterm
        simp [pollResultFrom, hterm0]
    | succ a =>
        have h0 : pollStep (obs s) = none := by
          simpa using hbefore 0 (by omega)
        simp only [pollResultFrom, h0]
        refine ih (s + 1) a (by omega) ?_ ?_
        · intro k hk
          have hkx := hbefore (k + 1) (by omega)
          rwa [show s + (k + 1) = s + 1 + k by omega] at hkx
        · rwa [show s + (a + 1) = s + 1 + a by omega] at hterm

/-- A `some` value of the loop comes from a first terminal attempt. -/
lemma pollResultFrom_some (obs : Nat → PollObs) (s n : Nat) (url : String)
    (h : pollResultFrom obs s n = some url) :
    ∃ a, a < n ∧ (∀ k, k < a → pollStep (obs (s + k)) = none) ∧
      pollStep (obs (s + a)) = some (some url) := by
  induction n generalizing s with
  | zero => simp [pollResultFrom] at h
  | succ n ih =>
    rcases hstep : pollStep (obs s) with _ | r
    · rw [pollResultFrom, hstep] at h
      obtain ⟨a, ha, hb, ht⟩ := ih (s + 1) h
      refine ⟨a + 1, by omega, ?_, ?_⟩
      · intro k hk
        cases k with
        | zero => simpa using hstep
        | succ k =>
            rw [show s + (k + 1) = s + 1 + k by omega]
            exact hb k (by omega)
      · rwa [show s + (a + 1) = s + 1 + a by omega]
    · rw [pollResultFrom, hstep] at h
      simp only [] at h
      refine ⟨0, by omega, fun k hk => by omega, ?_⟩
      rw [h] at hstep
      simpa using hstep

end Combinations

namespace Combinations

/-- C4: `pollResult` checks at most `maxAttempts` observations (its value
depends only on them); it returns an output URL exactly when the first
terminal attempt observed status `completed` with a non-empty outputs list;
a first-terminal `failed`, or a `completed` without outputs, yields `none`;
when every attempt in the budget is non-terminal (request errors, `queued`,
`processing`, or any other non-terminal status) the loop times out with
`none`. -/
theorem pollResult_spec (obs : Nat → PollObs) (maxAttempts : Nat) :
    (∀ obs2 : Nat → PollObs, (∀ a, a < maxAttempts → obs a = obs2 a) →
        pollResult obs maxAttempts = pollResult obs2 maxAttempts) ∧
    (∀ url, pollResult obs maxAttempts = some url ↔
        ∃ a, a < maxAttempts ∧ (∀ b, b < a → pollStep (obs b) = none) ∧
          ∃ outs, obs a = PollObs.response (some "completed") (some outs) ∧
            outs.head? = some url) ∧
    (∀ a outs, a < maxAttempts → (∀ b, b < a → pollStep (obs b) = none) →
        obs a = PollObs.response (some "failed") outs →
        pollResult obs maxAttempts = none) ∧
    (∀ a outs, a < maxAttempts → (∀ b, b < a → pollStep (obs b) = none) →
        obs a = PollObs.response (some "completed") outs →
        outs.bind List.head? = none →
        pollResult obs maxAttempts = none) ∧
    ((∀ a, a < maxAttempts → pollStep (obs a) = none) →
        pollResult obs maxAttempts = none) ∧
    (∀ po, pollStep po = none ↔ po = PollObs.requestError ∨
        ∃ st outs, po = PollObs.response st outs ∧
          st ≠ some "completed" ∧ st ≠ some "failed") := by
  unfold pollResult
  refine ⟨?_, ?_, ?_, ?_, ?_, ?_⟩
  · intro obs2 h
    exact pollResultFrom_congr obs obs2 0 maxAttempts fun k hk => by
      simpa using h k hk
  · intro url
    constructor
    · intro h
      obtain ⟨a, ha, hb, ht⟩ := pollResultFrom_some obs 0 maxAttempts url h
      refine ⟨a, ha, fun b hbb => by simpa using hb b hbb, ?_⟩
      rw [show (0 + a) = a by omega] at ht
      cases hobs : obs a with
      | requestError => rw [hobs] at ht; simp [pollStep] at ht
      | response st outs =>
          rw [hobs] at ht
          by_cases hst : st = some "completed"
          · subst hst
            simp only [pollStep, if_pos rfl, Option.some.injEq] at ht
            cases outs with
            | none => simp at ht
            | some l =>
                refine ⟨l, rfl, ?_⟩
                simpa using ht
          · by_cases hst2 : st = some "failed"
            · subst hst2; simp [pollStep] at ht
            · simp [pollStep, hst, hst2] at ht
    · rintro ⟨a, ha, hb, outs, hobs, hhead⟩
      have ht : pollStep (obs (0 + a)) = some (some url) := by
        simp [pollStep, Nat.zero_add, hobs, hhead]
      exact pollResultFrom_terminal obs 0 maxAttempts a (some url) ha
        (fun k hk => by simpa using hb k hk) ht
  · intro a outs ha hb hobs
    have ht : pollStep (obs (0 + a)) = some none := by
      simp [pollStep, Nat.zero_add, hobs]
    exact pollResultFrom_terminal obs 0 maxAttempts a none ha
      (fun k hk => by simpa using hb k hk) ht
  · intro a outs ha hb hobs hout
    have ht : pollStep (obs (0 + a)) = some none := by
      simp [pollStep, Nat.zero_add, hobs, hout]
    exact pollResultFrom_terminal obs 0 maxAttempts a none ha
      (fun k hk => by simpa using hb k hk) ht
  · intro h
    exact pollResultFrom_none obs 0 maxAttempts fun k hk => by
      simpa using h k hk
  · intro po
    cases po with
    | requestError => simp [pollStep]
    | response st outs =>
        by_cases h1 : st = some "completed"
        · subst h1; simp [pollStep]
        · by_cases h2 : st = some "failed"
          · subst h2; simp [pollStep]
          · simp [pollStep, h1, h2]

/-- Witness for C4: the sample observation sequence retries a request error
and a queued status, then returns the completed output at attempt 2. -/
theorem pollResult_spec_witness :
    pollResult samplePollObs 5 = some "outUrl" :=
  ((pollResult_spec samplePollObs 5).2.1 "outUrl").mpr
    ⟨2, by decide, by decide, ["outUrl"], by decide, by decide⟩

end Combinations

namespace Combinations

/-- C3: in the persist phase, a job whose poll produced no output — `null`
or the falsy empty string, both rejected by `if (!outputUrl) throw` — fails
with "No output" and attempts no insert; for a job that produced an output
URL, a uniqueness-conflict insert error (code `23505`) is treated as
success for that pair exactly like a clean insert, while any other insert
error makes only that pair's task reject; each job in the settled list gets
its own outcome, independent of the other jobs. -/
theorem processJob_conflict_spec (o : Oracles) (job : SubmittedJob)
    (url : String)
    (hpoll : pollResult (o.pollObs job.predictionId) 30 = some url)
    (hurl : url ≠ "") :
    (o.insert job.canonName url = InsertOutcome.ok →
        processJob o job =
          (Except.ok job.canonName, [(job.canonName, url)])) ∧
    (∀ msg, o.insert job.canonName url = InsertOutcome.fail "23505" msg →
        processJob o job =
          (Except.ok job.canonName, [(job.canonName, url)])) ∧
    (∀ code msg, code ≠ "23505" →
        o.insert job.canonName url = InsertOutcome.fail code msg →
        processJob o job =
          (Except.error msg, [(job.canonName, url)])) ∧
    (∀ job2 : SubmittedJob,
        pollResult (o.pollObs job2.predictionId) 30 = none →
        processJob o job2 =
          (Except.error ("No output for " ++ job2.canonName), [])) ∧
    (∀ job2 : SubmittedJob,
        pollResult (o.pollObs job2.predictionId) 30 = some "" →
        processJob o job2 =
          (Except.error ("No output for " ++ job2.canonName), [])) ∧
    (∀ jobs : List SubmittedJob,
        (jobs.map (processJob o)).length = jobs.length) ∧
    (∀ (jobs : List SubmittedJob) (i : Nat),
        (jobs.map (processJob o))[i]? = jobs[i]?.map (processJob o)) := by
  refine ⟨?_, ?_, ?_, ?_, ?_, fun jobs => jobs.length_map _,
    fun jobs i => List.getElem?_map (processJob o) jobs i⟩
  · intro hins
    unfold processJob
    rw [hpoll]
    simp only []
    rw [if_neg hurl, hins]
  · intro msg hins
    unfold processJob
    rw [hpoll]
    simp only []
    rw [if_neg hurl, hins]
    simp
  · intro code msg hcode hins
    unfold processJob
    rw [hpoll]
    simp only []
    rw [if_neg hurl, hins]
    simp [hcode]
  · intro job2 hp2
    unfold processJob
    rw [hp2]
  · intro job2 hp2
    unfold processJob
    rw [hp2]
    simp

/-- Witness for C3: the sample oracles poll to completion with a non-empty
output URL and insert cleanly. -/
theorem processJob_conflict_spec_witness :
    processJob sampleOracles sampleJob =
      (Except.ok "Alice x Bob", [("Alice x Bob", "out")]) :=
  (processJob_conflict_spec sampleOracles sampleJob "out" (by decide)
    (by decide)).1 (by decide)

/-- C7: `submitJob` signals failure by `none` rather than throwing: a thrown
request exception or malformed body, a non-ok HTTP status, a missing or
empty job identifier, or a non-200 `code` field all yield `none`; an id is
returned only when the response carried one; and in the submit phase a
pair's successful submission enters the submitted list regardless of the
other pairs' outcomes, while failures only drop their own pair. -/
theorem submitJob_spec :
    (submitJob SubmitObs.requestError = none) ∧
    (∀ status body, submitJob (SubmitObs.httpError status body) = none) ∧
    (∀ code, submitJob (SubmitObs.response code none) = none) ∧
    (∀ code id, code ≠ 200 →
        submitJob (SubmitObs.response code (some id)) = none) ∧
    (∀ obs id, submitJob obs = some id →
        obs = SubmitObs.response 200 (some id) ∧ id ≠ "") ∧
    (∀ (o : Oracles) (missing : List (Person × Person)) pair predictionId,
        pair ∈ missing →
        submitJob (o.submitObs pair.1.image pair.2.image) = some predictionId →
        (⟨pair, predictionId, canonicalName pair.1.name pair.2.name⟩ :
            SubmittedJob) ∈ submitPhase o missing) ∧
    (∀ (o : Oracles) (missing : List (Person × Person)),
        (submitPhase o missing).length ≤ missing.length) := by
  refine ⟨rfl, fun _ _ => rfl, fun _ => rfl, ?_, ?_, ?_, ?_⟩
  · intro code id hcode
    simp [submitJob, hcode]
  · intro obs id h
    cases obs with
    | requestError => simp [submitJob] at h
    | httpError status body => simp [submitJob] at h
    | response code dataId =>
        cases dataId with
        | none => simp [submitJob] at h
        | some idd =>
            by_cases hc : code = 200 ∧ idd ≠ ""
            · simp [submitJob, hc] at h
              subst h
              exact ⟨by rw [hc.1], hc.2⟩
            · simp [submitJob, hc] at h
  · intro o missing pair predictionId hmem hsub
    unfold submitPhase
    rw [List.mem_filterMap]
    exact ⟨pair, hmem, by rw [hsub]⟩
  · intro o missing
    exact List.length_filterMap_le _ _

/-- Witness for C7: a non-200 code with an id present is still a failure. -/
theorem submitJob_spec_witness :
    submitJob (SubmitObs.response 500 (some "pid")) = none :=
  submitJob_spec.2.2.2.1 500 "pid" (by decide)

end Combinations

namespace Combinations

/-- C5: when every enumerated pair's canonical label is already among the
generated names, the invocation computes zero missing pairs and terminates
successfully with the already-generated message; the result is independent
of the oracles (no job submitted) and attempts no insert. -/
theorem worker_idempotent (key su rk : String) (people : List Person)
    (doneNames : List String) (o : Oracles)
    (h2 : 2 ≤ people.length)
    (hall : ∀ j, j < people.length → ∀ i, i < j →
        doneNames.contains
          (canonicalName (personAt people i).name (personAt people j).name)
          = true) :
    missingPairs people doneNames = [] ∧
    POST ⟨some key, some su, some rk⟩ (Except.ok people) (Except.ok doneNames)
        o =
      ⟨Response.messageResponse 200 "All combinations already generated", []⟩ := by
  have hmiss : missingPairs people doneNames = [] := by
    unfold missingPairs
    rw [List.filterMap_eq_nil_iff]
    rintro ⟨i, j⟩ hij
    obtain ⟨hlt, hjn⟩ := mem_pairIndices.mp hij
    simp only [hall j hjn i hlt]
    simp
  refine ⟨hmiss, ?_⟩
  simp [POST, hmiss, Nat.not_lt.mpr h2]

/-- Witness for C5: with the sample two-person table and the pair's label
already generated, the run reports all combinations generated. -/
theorem worker_idempotent_witness :
    missingPairs samplePeople ["Alice x Bob"] = [] ∧
    POST ⟨some "k", some "u", some "r"⟩ (Except.ok samplePeople)
        (Except.ok ["Alice x Bob"]) sampleOracles =
      ⟨Response.messageResponse 200 "All combinations already generated", []⟩ :=
  worker_idempotent "k" "u" "r" samplePeople ["Alice x Bob"] sampleOracles
    (by decide) (by decide)

/-- C6: with fewer than two people the invocation terminates successfully
(HTTP 200) with the "Not enough people yet" message, independent of the
generated-table read and of the oracles, and attempts no insert. -/
theorem not_enough_people (key su rk : String) (people : List Person)
    (generatedRead : Except String (List String)) (o : Oracles)
    (h : people.length < 2) :
    POST ⟨some key, some su, some rk⟩ (Except.ok people) generatedRead o =
      ⟨Response.messageResponse 200 "Not enough people yet", []⟩ := by
  simp [POST, h]

/-- Witness for C6: a single registered person. -/
theorem not_enough_people_witness :
    POST ⟨some "k", some "u", some "r"⟩ (Except.ok [samplePersonA])
        (Except.ok []) sampleOracles =
      ⟨Response.messageResponse 200 "Not enough people yet", []⟩ :=
  not_enough_people "k" "u" "r" [samplePersonA] (Except.ok []) sampleOracles
    (by decide)

end Combinations

namespace Combinations

/-- C8 (counterexample): a non-fatal invocation — configuration present and
both store reads successful — with a single registered person returns a
message-only body: it carries none of the total/submitted/succeeded/failed
fields, refuting the claim that every non-fatal invocation returns the full
summary. -/
theorem summary_fields_counterexample :
    (POST ⟨some "k", some "u", some "r"⟩ (Except.ok [samplePersonA])
        (Except.ok []) sampleOracles).response =
      Response.messageResponse 200 "Not enough people yet" ∧
    (Response.messageResponse 200 "Not enough people yet").hasSummaryFields
      = false := by
  decide

/-- C8 (amended): on every non-fatal invocation the endpoint returns HTTP
status 200; the body carries all five summary fields exactly in the runs
that reach the submit phase (at least two people and at least one missing
pair), and otherwise is a message-only body; `{error}` with status 500 is
returned exactly on missing configuration or a store-read failure. -/
theorem post_nonfatal_response (key su rk : String) (people : List Person)
    (doneNames : List String) (o : Oracles) :
    (POST ⟨some key, some su, some rk⟩ (Except.ok people)
        (Except.ok doneNames) o).response.statusCode = 200 ∧
    (2 ≤ people.length → missingPairs people doneNames ≠ [] →
        (POST ⟨some key, some su, some rk⟩ (Except.ok people)
            (Except.ok doneNames) o).response.hasSummaryFields = true) ∧
    (people.length < 2 ∨ missingPairs people doneNames = [] →
        ∃ msg, (POST ⟨some key, some su, some rk⟩ (Except.ok people)
            (Except.ok doneNames) o).response =
          Response.messageResponse 200 msg) ∧
    (∀ (su2 rk2 : Option String) peopleRead generatedRead (o2 : Oracles),
        POST ⟨none, su2, rk2⟩ peopleRead generatedRead o2 =
          ⟨Response.errorResponse 500 "WAVESPEED_API_KEY not set", []⟩) ∧
    (∀ e generatedRead,
        POST ⟨some key, some su, some rk⟩ (Except.error e) generatedRead o =
          ⟨Response.errorResponse 500 e, []⟩) ∧
    (∀ e, 2 ≤ people.length →
        POST ⟨some key, some su, some rk⟩ (Except.ok people)
            (Except.error e) o =
          ⟨Response.errorResponse 500 e, []⟩) := by
  refine ⟨?_, ?_, ?_, fun su2 rk2 pr gr o2 => rfl, fun e gr => rfl, ?_⟩
  · by_cases hlen : people.length < 2
    · simp [POST, hlen, Response.statusCode]
    · by_cases hm : (missingPairs people doneNames).length = 0
      · simp [POST, hlen, hm, Response.statusCode]
      · simp [POST, hlen, hm, Response.statusCode]
  · intro h2 hm
    have hm0 : ¬ (missingPairs people doneNames).length = 0 := by
      simpa [List.length_eq_zero] using hm
    simp [POST, Nat.not_lt.mpr h2, hm0, Response.hasSummaryFields]
  · rintro (h | h)
    · exact ⟨"Not enough people yet", by simp [POST, h]⟩
    · by_cases hlen : people.length < 2
      · exact ⟨"Not enough people yet", by simp [POST, hlen]⟩
      · refine ⟨"All combinations already generated", ?_⟩
        simp [POST, hlen, h]
  · intro e h2
    simp [POST, Nat.not_lt.mpr h2]

/-- Witness for C8 (amended theorem): a two-person run with an empty ledger
reaches the submit phase and its body carries the five summary fields. -/
theorem post_nonfatal_response_witness :
    (POST ⟨some "k", some "u", some "r"⟩ (Except.ok samplePeople)
        (Except.ok []) sampleOracles).response.hasSummaryFields = true :=
  (post_nonfatal_response "k" "u" "r" samplePeople [] sampleOracles).2.1
    (by decide) (by decide)

/-- C9: two distinct person records sharing one name are still paired —
`canonicalName` of a name with itself is the self-style label — and distinct
person pairs can collide on one canonical label, so a single run's
missing-pair list can carry one label twice, and the run then submits and
attempts to insert that label twice. -/
theorem duplicate_names_duplicate_labels :
    canonicalName "Ann" "Ann" = "Ann x Ann" ∧
    missingPairs dupPeople [] =
      [(dupPersonA, dupPersonB), (dupPersonA, dupPersonA2),
       (dupPersonB, dupPersonA2)] ∧
    (missingPairs dupPeople []).map
        (fun pq => canonicalName pq.1.name pq.2.name) =
      ["Ann x Ben", "Ann x Ann", "Ann x Ben"] ∧
    ¬ ((missingPairs dupPeople []).map
        (fun pq => canonicalName pq.1.name pq.2.name)).Nodup ∧
    (POST ⟨some "k", some "u", some "r"⟩ (Except.ok dupPeople) (Except.ok [])
        sampleOracles).insertAttempts =
      [("Ann x Ben", "out"), ("Ann x Ann", "out"), ("Ann x Ben", "out")] := by
  decide

/-- Partitioning a list's length by a boolean predicate. -/
lemma countP_not_add {α : Type} (p : α → Bool) (l : List α) :
    l.countP p + l.countP (fun a => !(p a)) = l.length := by
  induction l with
  | nil => rfl
  | cons a l ih =>
    by_cases h : p a
    all_goals simp [List.countP_cons, h, ← ih]
    all_goals omega

/-- C10: whenever an invocation reaches the summarize step — returns the
summary response — the reported counts satisfy
`succeeded + failed = submitted` and `submitted ≤ total`. -/
theorem summary_counts_invariant (env : Env)
    (peopleRead : Except String (List Person))
    (generatedRead : Except String (List String)) (o : Oracles)
    (st : Nat) (msg : String) (total submitted succeeded failed : Nat)
    (h : (POST env peopleRead generatedRead o).response =
        Response.summaryResponse st msg total submitted succeeded failed) :
    succeeded + failed = submitted ∧ submitted ≤ total := by
  obtain ⟨apiKey, supabaseUrl, serviceRoleKey⟩ := env
  cases apiKey with
  | none => simp [POST] at h
  | some key =>
    cases supabaseUrl with
    | none => simp [POST] at h
    | some su =>
      cases serviceRoleKey with
      | none => simp [POST] at h
      | some rk =>
        cases peopleRead with
        | error e => simp [POST] at h
        | ok people =>
          by_cases hlen : people.length < 2
          · simp [POST, hlen] at h
          · cases generatedRead with
            | error e => simp [POST, hlen] at h
            | ok doneNames =>
              by_cases hm : (missingPairs people doneNames).length = 0
              · simp [POST, hlen, hm] at h
              · simp only [POST, hlen, hm, if_neg, if_false] at h
                simp only [Response.summaryResponse.injEq] at h
                obtain ⟨-, -, htot, hsub, hsucc, hfail⟩ := h
                subst htot hsub hsucc hfail
                constructor
                · rw [countP_not_add Except.isOk]
                  simp [List.length_map]
                · unfold submitPhase
                  exact List.length_filterMap_le _ _

/-- Witness for C10: the sample two-person run yields the summary counts
`total = 1, submitted = 1, succeeded = 1, failed = 0`. -/
theorem summary_counts_invariant_witness :
    (1 : Nat) + 0 = 1 ∧ (1 : Nat) ≤ 1 :=
  summary_counts_invariant ⟨some "k", some "u", some "r"⟩
    (Except.ok samplePeople) (Except.ok []) sampleOracles
    200 "Done. Succeeded: 1, failed: 0" 1 1 1 0 (by decide)

end Combinations
